import Mathlib

/-!
Verification development for the Balancer SDK vault-model simulation layer.

The core under verification is `VaultModel` from
`src/balancer-js/src/modules/vaultModel/vaultModel.module.ts`: the
`updateDeltas` accumulator, the `multicall` orchestration loop with its
dispatch on `actionType`, and the four static mapping helpers.  The
collaborators `RelayerModel`, `PoolModel` and `PoolsSource` are imported by
that module but their sources are not part of this excerpt; they are
modelled here from the specification (sections 4.1 to 4.3), each such
definition saying so in its doc comment.  Pool math is an external pluggable
capability (a non-goal of the spec) and is therefore a parameter
(`MathProvider`) rather than a fixed function.

Ethers `BigNumber` values are arbitrary-precision signed integers and are
embedded as `Int`; addresses, pool ids and opaque encoded user data are
embedded as `String`; the TypeScript numeric enum `ActionType` is embedded
as `Nat` with its source values, so that a runtime tag outside the declared
enum can be expressed.
-/

namespace Balancer

abbrev Address := String

abbrev PoolId := String

/-- ActionType enum from the source, a TypeScript numeric enum:
`BatchSwap = 0`, `Join = 1`, `Exit = 2`, `Swap = 3`. -/
def ActionType.BatchSwap : Nat := 0

/-- ActionType.Join has the numeric value 1 in the source enum. -/
def ActionType.Join : Nat := 1

/-- ActionType.Exit has the numeric value 2 in the source enum. -/
def ActionType.Exit : Nat := 2

/-- ActionType.Swap has the numeric value 3 in the source enum. -/
def ActionType.Swap : Nat := 3

/-- Error kinds of the simulation core, from section 7 of the spec.
`ShapeMismatchError` models the runtime failure of reading the fields of a
request whose concrete shape disagrees with the branch that was dispatched
(in the source this would surface as a TypeError on an undefined field). -/
inductive VaultError where
  | DataSourceError : VaultError
  | PoolNotFoundError : PoolId → VaultError
  | UnresolvedReferenceError : Nat → VaultError
  | DuplicateReferenceError : Nat → VaultError
  | IndexOutOfRangeError : VaultError
  | UnsupportedActionError : VaultError
  | ShapeMismatchError : VaultError
deriving DecidableEq, Repr

/-- FundManagement record carried by swap requests (sender, recipient and
internal-balance flags); opaque to the simulation core. -/
structure FundManagement where
  sender : Address
  recipient : Address
  fromInternalBalance : Bool
  toInternalBalance : Bool
deriving DecidableEq, Repr

/-- SingleSwap record of a `SwapRequest`: pool id, swap kind
(given-in = 0 / given-out = 1), the two assets, the amount and opaque user
data. -/
structure SingleSwap where
  poolId : PoolId
  kind : Nat
  assetIn : Address
  assetOut : Address
  amount : Int
  userData : String
deriving DecidableEq, Repr

/-- Amount field of a batch-swap step: either a literal value or a chained
output reference to be resolved from the relayer ledger (spec section 4.3). -/
inductive SwapAmount where
  | value : Int → SwapAmount
  | ref : Nat → SwapAmount
deriving DecidableEq, Repr

/-- Output-reference slot of a batch-swap or exit request: the index of the
asset whose final amount is recorded, and the symbolic ledger key. -/
structure OutputReference where
  index : Nat
  key : Nat
deriving DecidableEq, Repr

/-- SwapRequest shape (vaultModel.module.ts line 84): tag, the single-swap
record, funds metadata and one optional output reference. -/
structure SwapRequest where
  actionType : Nat
  request : SingleSwap
  funds : FundManagement
  outputReference : Option Nat
deriving DecidableEq, Repr

/-- One step of a batch swap: pool id, indices of the in/out assets into the
declared asset universe, the (possibly chained) amount and opaque user data. -/
structure BatchSwapStep where
  poolId : PoolId
  assetInIndex : Nat
  assetOutIndex : Nat
  amount : SwapAmount
  userData : String
deriving DecidableEq, Repr

/-- BatchSwapRequest shape (vaultModel.module.ts line 94): tag, ordered swap
steps, the asset universe, funds metadata, the given-in/given-out flag and
one output reference per recorded asset. -/
structure BatchSwapRequest where
  actionType : Nat
  swaps : List BatchSwapStep
  assets : List Address
  funds : FundManagement
  swapType : Nat
  outputReferences : List OutputReference
deriving DecidableEq, Repr

/-- JoinPoolRequest shape (vaultModel.module.ts line 106): tag, pool id,
opaque encoded user data and one optional output reference. -/
structure JoinPoolRequest where
  actionType : Nat
  poolId : PoolId
  encodedUserData : String
  outputReference : Option Nat
deriving DecidableEq, Repr

/-- ExitPoolRequest shape (vaultModel.module.ts line 116): tag, pool id,
opaque encoded user data and output references. -/
structure ExitPoolRequest where
  actionType : Nat
  poolId : PoolId
  encodedUserData : String
  outputReferences : List OutputReference
deriving DecidableEq, Repr

/-- Requests union (vaultModel.module.ts line 25): one of the four request
shapes.  Each shape carries its own `actionType` field, as in the source. -/
inductive Requests where
  | joinPool : JoinPoolRequest → Requests
  | exitPool : ExitPoolRequest → Requests
  | batchSwap : BatchSwapRequest → Requests
  | singleSwap : SwapRequest → Requests
deriving DecidableEq, Repr

/-- Reading the `actionType` discriminant field of a request, common to all
four shapes of the union. -/
def Requests.actionType : Requests → Nat
  | .joinPool j => j.actionType
  | .exitPool e => e.actionType
  | .batchSwap b => b.actionType
  | .singleSwap s => s.actionType

/-- Pool entity (spec section 3): pool id, BPT address, type tag, ordered
constituent token addresses and balances.  Read-only to this core. -/
structure Pool where
  id : PoolId
  address : Address
  poolType : Nat
  tokens : List Address
  balances : List Int
deriving DecidableEq, Repr

/-- Pool dictionary: mapping from pool id to pool entity (spec section 3). -/
abbrev PoolDict := List (PoolId × Pool)

/-- Modelled from the spec: the pool math providers (spec sections 2 and 6)
are an external capability, one computation per operation kind, selected by
the pool passed in.  `joinResult` yields the token/amount pairs of a join
together with the BPT amount recorded in the output reference; `exitResult`
yields the token/amount pairs of an exit; `swapResult` yields the amount
received for a swap of the given kind, assets and amount. -/
structure MathProvider where
  joinResult : Pool → String → List Address × List Int × Int
  exitResult : Pool → String → List Address × List Int
  swapResult : Pool → Nat → Address → Address → Int → Int

/-- Modelled from the spec: the Relayer Ledger (spec section 4.2, source
`RelayerModel` not part of this excerpt) is a keyed store of symbolic
output-reference slots, fresh per `multicall` invocation. -/
abbrev RelayerLedger := List (Nat × Int)

/-- Modelled from the spec: writing a value under a symbolic slot; writing
the same reference twice fails with a `DuplicateReferenceError` (the safer
default the spec chooses for its open question in section 9). -/
def RelayerLedger.write (led : RelayerLedger) (k : Nat) (v : Int) :
    Except VaultError RelayerLedger :=
  match led.lookup k with
  | some _ => .error (.DuplicateReferenceError k)
  | none => .ok ((k, v) :: led)

/-- Modelled from the spec: reading a slot; a read of a never-written
reference fails with an `UnresolvedReferenceError` (spec section 4.2). -/
def RelayerLedger.read (led : RelayerLedger) (k : Nat) :
    Except VaultError Int :=
  match led.lookup k with
  | some v => .ok v
  | none => .error (.UnresolvedReferenceError k)

namespace PoolModel

/-- Modelled from the spec: `doJoin` (spec section 4.3, source `PoolModel`
not part of this excerpt) looks up the pool (failing with
`PoolNotFoundError` if absent), delegates to the math provider, writes the
BPT result into the designated output reference when one is given, and
returns the token/amount pairs. -/
def doJoin (mp : MathProvider) (pools : PoolDict) (led : RelayerLedger)
    (call : JoinPoolRequest) :
    Except VaultError (List Address × List Int × RelayerLedger) :=
  match pools.lookup call.poolId with
  | none => .error (.PoolNotFoundError call.poolId)
  | some pool =>
    match mp.joinResult pool call.encodedUserData with
    | (tokens, amounts, bptOut) =>
      match call.outputReference with
      | none => .ok (tokens, amounts, led)
      | some k =>
        match led.write k bptOut with
        | .error e => .error e
        | .ok led' => .ok (tokens, amounts, led')

/-- Modelled from the spec: writing the final per-asset amounts of an exit
or batch swap to their output references, each slot recording the amount at
its asset index; an index outside the amounts fails with an
`IndexOutOfRangeError`. -/
def writeRefs (led : RelayerLedger) (amounts : List Int) :
    List OutputReference → Except VaultError RelayerLedger
  | [] => .ok led
  | r :: rest =>
    if r.index < amounts.length then
      match led.write r.key (amounts.getD r.index 0) with
      | .error e => .error e
      | .ok led' => writeRefs led' amounts rest
    else .error .IndexOutOfRangeError

/-- Modelled from the spec: `doExit` (spec section 4.3) is symmetric to
join: pool lookup, math delegation, recording of the released amounts into
the output references, and the token/amount pairs returned. -/
def doExit (mp : MathProvider) (pools : PoolDict) (led : RelayerLedger)
    (call : ExitPoolRequest) :
    Except VaultError (List Address × List Int × RelayerLedger) :=
  match pools.lookup call.poolId with
  | none => .error (.PoolNotFoundError call.poolId)
  | some pool =>
    match mp.exitResult pool call.encodedUserData with
    | (tokens, amounts) =>
      match writeRefs led amounts call.outputReferences with
      | .error e => .error e
      | .ok led' => .ok (tokens, amounts, led')

/-- Modelled from the spec: `doSingleSwap` (spec section 4.3) resolves the
request's pool (failing with `PoolNotFoundError` if absent), computes the
swap output via the math provider, records it in the output reference when
one is given, and returns exactly two signed amounts, out first (positive,
received) then in (negative, paid), matching the `[assetOut, assetIn]` key
order used at the call site in `multicall`. -/
def doSingleSwap (mp : MathProvider) (pools : PoolDict) (led : RelayerLedger)
    (call : SwapRequest) : Except VaultError (List Int × RelayerLedger) :=
  match pools.lookup call.request.poolId with
  | none => .error (.PoolNotFoundError call.request.poolId)
  | some pool =>
    let amountOut := mp.swapResult pool call.request.kind
      call.request.assetIn call.request.assetOut call.request.amount
    let deltas := [amountOut, -call.request.amount]
    match call.outputReference with
    | none => .ok (deltas, led)
    | some k =>
      match led.write k amountOut with
      | .error e => .error e
      | .ok led' => .ok (deltas, led')

/-- Modelled from the spec: resolving the amount of a batch-swap step; a
chained output reference is read from the relayer ledger before computing
(spec section 4.3). -/
def resolveAmount (led : RelayerLedger) : SwapAmount → Except VaultError Int
  | .value v => .ok v
  | .ref k => led.read k

/-- Modelled from the spec: the step loop of `doBatchSwap`.  Each step first
resolves its (possibly chained) amount, checks the asset indices against the
declared asset universe (failing with `IndexOutOfRangeError` outside it),
looks up the pool, computes the amount received via the math provider, and
accumulates one signed amount per asset: received positive at the out index,
paid negative at the in index. -/
def doBatchSwapSteps (mp : MathProvider) (pools : PoolDict)
    (assets : List Address) (swapType : Nat) (led : RelayerLedger) :
    List BatchSwapStep → List Int → Except VaultError (List Int)
  | [], acc => .ok acc
  | step :: rest, acc =>
    match resolveAmount led step.amount with
    | .error e => .error e
    | .ok amt =>
      if step.assetInIndex < assets.length then
        if step.assetOutIndex < assets.length then
          match pools.lookup step.poolId with
          | none => .error (.PoolNotFoundError step.poolId)
          | some pool =>
            let tokenIn := assets.getD step.assetInIndex ""
            let tokenOut := assets.getD step.assetOutIndex ""
            let out := mp.swapResult pool swapType tokenIn tokenOut amt
            let acc1 := acc.set step.assetOutIndex
              (acc.getD step.assetOutIndex 0 + out)
            let acc2 := acc1.set step.assetInIndex
              (acc1.getD step.assetInIndex 0 - amt)
            doBatchSwapSteps mp pools assets swapType led rest acc2
        else .error .IndexOutOfRangeError
      else .error .IndexOutOfRangeError

/-- Modelled from the spec: `doBatchSwap` (spec section 4.3) iterates the
ordered swap steps accumulating one signed amount per asset of the declared
universe (untouched assets stay at zero), then writes the final per-asset
amounts to their output references, and returns the amounts. -/
def doBatchSwap (mp : MathProvider) (pools : PoolDict) (led : RelayerLedger)
    (call : BatchSwapRequest) : Except VaultError (List Int × RelayerLedger) :=
  match doBatchSwapSteps mp pools call.assets call.swapType led call.swaps
      (List.replicate call.assets.length 0) with
  | .error e => .error e
  | .ok amounts =>
    match writeRefs led amounts call.outputReferences with
    | .error e => .error e
    | .ok led' => .ok (amounts, led')

end PoolModel

/-- Delta map: token address to accumulated signed amount, in first-touch
insertion order as a JavaScript record. -/
abbrev DeltaMap := List (Address × Int)

/-- Reading a delta map entry; an absent token reads as zero, as in
`updateDeltas` where an absent key is first set to `Zero`. -/
def getDelta : DeltaMap → Address → Int
  | [], _ => 0
  | (t', v) :: rest, t => if t' = t then v else getDelta rest t

/-- Setting a delta map entry, updating in place when the key exists and
appending otherwise, as assignment to a JavaScript record key. -/
def setDelta : DeltaMap → Address → Int → DeltaMap
  | [], t, v => [(t, v)]
  | (t', v') :: rest, t, v =>
    if t' = t then (t, v) :: rest else (t', v') :: setDelta rest t v

namespace VaultModel

/-- VaultModel.updateDeltas (vaultModel.module.ts lines 41 to 51): for each
asset in order, an absent key is treated as zero and the matching amount is
added to the running value.  The source iterates the assets by index reading
`amounts[i]`; executor results are parallel sequences of equal length (spec
section 4.3), which the zip expresses. -/
def updateDeltas (deltas : DeltaMap) (assets : List Address)
    (amounts : List Int) : DeltaMap :=
  (assets.zip amounts).foldl
    (fun d p => setDelta d p.1 (getDelta d p.1 + p.2)) deltas

/-- The final `else` branch of the `multicall` dispatch (vaultModel.module.ts
lines 72 to 79): the request is processed as a single swap, merged under the
keys `[assetOut, assetIn]` of its request record; a request of another
concrete shape has no such record to read. -/
def runSingleSwapBranch (mp : MathProvider) (pools : PoolDict)
    (led : RelayerLedger) (call : Requests) :
    Except VaultError (List Address × List Int × RelayerLedger) :=
  match call with
  | .singleSwap sw =>
    match PoolModel.doSingleSwap mp pools led sw with
    | .error e => .error e
    | .ok (amts, led') =>
      .ok ([sw.request.assetOut, sw.request.assetIn], amts, led')
  | _ => .error .ShapeMismatchError

/-- One iteration of the `multicall` loop (vaultModel.module.ts lines 61 to
79): dispatch on the numeric `actionType` tag, in the source's order Join,
Exit, BatchSwap, with everything else falling to the single-swap branch.
The result is the token keys and amounts handed to `updateDeltas` together
with the ledger after the step. -/
def runCall (mp : MathProvider) (pools : PoolDict) (led : RelayerLedger)
    (call : Requests) :
    Except VaultError (List Address × List Int × RelayerLedger) :=
  if call.actionType = ActionType.Join then
    match call with
    | .joinPool j => PoolModel.doJoin mp pools led j
    | _ => .error .ShapeMismatchError
  else if call.actionType = ActionType.Exit then
    match call with
    | .exitPool e => PoolModel.doExit mp pools led e
    | _ => .error .ShapeMismatchError
  else if call.actionType = ActionType.BatchSwap then
    match call with
    | .batchSwap b =>
      match PoolModel.doBatchSwap mp pools led b with
      | .error e => .error e
      | .ok (amts, led') => .ok (b.assets, amts, led')
    | _ => .error .ShapeMismatchError
  else
    runSingleSwapBranch mp pools led call

/-- The `for` loop of `multicall` (vaultModel.module.ts lines 61 to 80):
requests processed strictly in order, each step's result merged into the
running delta map by `updateDeltas`, any step error aborting the loop. -/
def processCalls (mp : MathProvider) (pools : PoolDict) :
    List Requests → RelayerLedger → DeltaMap →
    Except VaultError (DeltaMap × RelayerLedger)
  | [], led, deltas => .ok (deltas, led)
  | call :: rest, led, deltas =>
    match runCall mp pools led call with
    | .error e => .error e
    | .ok (tokens, amounts, led') =>
      processCalls mp pools rest led' (updateDeltas deltas tokens amounts)

end VaultModel

/-- Modelled from the spec: the state of a `PoolsSource` instance (spec
section 4.1, source not part of this excerpt): the cached dictionary, plus
two observation counters: how many provider fetches have been issued and how
many times `poolsDictionary` has been invoked. -/
structure PoolsSourceState where
  cache : Option PoolDict
  fetchCount : Nat
  dictCalls : Nat
deriving DecidableEq, Repr

/-- Building the pool dictionary from the provider's raw pool records,
keying each pool by its id. -/
def buildDict (pools : List Pool) : PoolDict :=
  pools.map (fun p => (p.id, p))

/-- Modelled from the spec: `poolsDictionary(refresh)` (spec section 4.1).
With `refresh` false and a cache present the cached dictionary is returned
and no fetch is issued; otherwise the provider is fetched (failing with a
`DataSourceError` when unavailable, installing no partial dictionary), the
dictionary rebuilt and the cache replaced.  The provider is modelled as
`Option (List Pool)`, `none` being an unreachable or malformed provider. -/
def poolsDictionary (provider : Option (List Pool)) (st : PoolsSourceState)
    (refresh : Bool) : Except VaultError (PoolDict × PoolsSourceState) :=
  let st1 : PoolsSourceState := { st with dictCalls := st.dictCalls + 1 }
  match st.cache, refresh with
  | some d, false => .ok (d, st1)
  | _, _ =>
    match provider with
    | none => .error .DataSourceError
    | some ps =>
      let d := buildDict ps
      .ok (d, { st1 with cache := some d, fetchCount := st1.fetchCount + 1 })

/-- Instance state of a `VaultModel`: it holds only its pools source
(vaultModel.module.ts line 35). -/
structure VaultModelState where
  poolsSource : PoolsSourceState
deriving DecidableEq, Repr

namespace VaultModel

/-- VaultModel.multicall (vaultModel.module.ts lines 53 to 82): construct a
fresh relayer ledger, obtain the pool dictionary respecting `refresh`
(default false), run every request in order merging deltas, and return the
final delta map.  The math provider and the pool data provider, ambient
objects in the source, are explicit parameters; the mutation of the pools
source cache is returned as the new instance state. -/
def multicall (mp : MathProvider) (provider : Option (List Pool))
    (vm : VaultModelState) (rawCalls : List Requests)
    (refresh : Bool := false) :
    Except VaultError (DeltaMap × VaultModelState) :=
  let relayerLedger : RelayerLedger := []
  match poolsDictionary provider vm.poolsSource refresh with
  | .error e => .error e
  | .ok (pools, st') =>
    match processCalls mp pools rawCalls relayerLedger [] with
    | .error e => .error e
    | .ok (deltas, _) => .ok (deltas, ⟨st'⟩)

/-- Per-step results of the `multicall` loop: the `(tokens, amounts)` pair
each request hands to `updateDeltas`, collected in order, together with the
final ledger; the same iteration as `processCalls` without the merging. -/
def stepResults (mp : MathProvider) (pools : PoolDict) :
    List Requests → RelayerLedger →
    Except VaultError (List (List Address × List Int) × RelayerLedger)
  | [], led => .ok ([], led)
  | call :: rest, led =>
    match runCall mp pools led call with
    | .error e => .error e
    | .ok (tokens, amounts, led') =>
      match stepResults mp pools rest led' with
      | .error e => .error e
      | .ok (rs, ledEnd) => .ok ((tokens, amounts) :: rs, ledEnd)

end VaultModel

/-- Contribution of one step's `(tokens, amounts)` result to a given token:
the sum of the amounts paired with that token. -/
def contribution (t : Address) (step : List Address × List Int) : Int :=
  (((step.1.zip step.2).filter (fun p => p.1 = t)).map (fun p => p.2)).sum

/-- Swap call descriptor from the transaction-encoding layer (imported type
of `mapSwapRequest`; its module is not part of this excerpt, the fields
beyond those read by the mapper are representative). -/
structure Swap where
  request : SingleSwap
  funds : FundManagement
  limit : Int
  deadline : Int
  outputReference : Option Nat
deriving DecidableEq, Repr

/-- EncodeBatchSwapInput descriptor from the transaction-encoding layer
(imported type of `mapBatchSwapRequest`). -/
structure EncodeBatchSwapInput where
  swaps : List BatchSwapStep
  assets : List Address
  funds : FundManagement
  swapType : Nat
  limits : List Int
  deadline : Int
  outputReferences : List OutputReference
deriving DecidableEq, Repr

/-- Inner joinPoolRequest record of an `EncodeJoinPoolInput`, carrying the
opaque encoded user data the mapper extracts. -/
structure JoinPoolRequestData where
  assets : List Address
  maxAmountsIn : List Int
  userData : String
  fromInternalBalance : Bool
deriving DecidableEq, Repr

/-- EncodeJoinPoolInput descriptor from the transaction-encoding layer
(imported type of `mapJoinPoolRequest`). -/
structure EncodeJoinPoolInput where
  poolId : PoolId
  sender : Address
  recipient : Address
  joinPoolRequest : JoinPoolRequestData
  outputReference : Option Nat
deriving DecidableEq, Repr

/-- Inner exitPoolRequest record of an `EncodeExitPoolInput`, carrying the
opaque encoded user data the mapper extracts. -/
structure ExitPoolRequestData where
  assets : List Address
  minAmountsOut : List Int
  userData : String
  toInternalBalance : Bool
deriving DecidableEq, Repr

/-- EncodeExitPoolInput descriptor from the transaction-encoding layer
(imported type of `mapExitPoolRequest`). -/
structure EncodeExitPoolInput where
  poolId : PoolId
  sender : Address
  recipient : Address
  exitPoolRequest : ExitPoolRequestData
  outputReferences : List OutputReference
deriving DecidableEq, Repr

namespace VaultModel

/-- VaultModel.mapSwapRequest (vaultModel.module.ts lines 84 to 92). -/
def mapSwapRequest (call : Swap) : SwapRequest :=
  { actionType := ActionType.Swap
    request := call.request
    funds := call.funds
    outputReference := call.outputReference }

/-- VaultModel.mapBatchSwapRequest (vaultModel.module.ts lines 94 to 104). -/
def mapBatchSwapRequest (call : EncodeBatchSwapInput) : BatchSwapRequest :=
  { actionType := ActionType.BatchSwap
    swaps := call.swaps
    assets := call.assets
    funds := call.funds
    swapType := call.swapType
    outputReferences := call.outputReferences }

/-- VaultModel.mapJoinPoolRequest (vaultModel.module.ts lines 106 to 114). -/
def mapJoinPoolRequest (call : EncodeJoinPoolInput) : JoinPoolRequest :=
  { actionType := ActionType.Join
    poolId := call.poolId
    encodedUserData := call.joinPoolRequest.userData
    outputReference := call.outputReference }

/-- VaultModel.mapExitPoolRequest (vaultModel.module.ts lines 116 to 124). -/
def mapExitPoolRequest (call : EncodeExitPoolInput) : ExitPoolRequest :=
  { actionType := ActionType.Exit
    poolId := call.poolId
    encodedUserData := call.exitPoolRequest.userData
    outputReferences := call.outputReferences }

end VaultModel

/-- Parameters of `buildExitExactBPTIn` (the imported `ExitConcern` types
are not part of this excerpt; fields follow the destructuring in the
source of `StablePhantomPoolExit`). -/
structure ExitExactBPTInParameters where
  exiter : Address
  pool : Pool
  bptIn : String
  slippage : String
  shouldUnwrapNativeAsset : Bool
  wrappedNativeAsset : Address
  singleTokenOut : Option Address
deriving Repr

/-- Parameters of `buildExitExactTokensOut`, following the destructuring in
the source of `StablePhantomPoolExit`. -/
structure ExitExactTokensOutParameters where
  exiter : Address
  pool : Pool
  tokensOut : List Address
  amountsOut : List String
  slippage : String
  wrappedNativeAsset : Address
deriving Repr

/-- Parameters of `buildRecoveryExit`: the Pick of exiter, pool, bptIn and
slippage out of `ExitExactBPTInParameters`. -/
structure RecoveryExitParameters where
  exiter : Address
  pool : Pool
  bptIn : String
  slippage : String
deriving Repr

/-- Transaction attributes a successful exact-BPT-in exit build would
return (imported attribute type, representative fields). -/
structure ExitExactBPTInAttributes where
  «to» : Address
  data : String
  minAmountsOut : List String
  maxBPTIn : String
deriving DecidableEq, Repr

/-- Transaction attributes a successful exact-tokens-out exit build would
return (imported attribute type, representative fields). -/
structure ExitExactTokensOutAttributes where
  «to» : Address
  data : String
  expectedBPTIn : String
  maxBPTIn : String
deriving DecidableEq, Repr

namespace StablePhantomPoolExit

/-- StablePhantomPoolExit.buildExitExactBPTIn: this exit type is only
available when the pool is paused and the pause window expired, so the
build throws unconditionally. -/
def buildExitExactBPTIn (_p : ExitExactBPTInParameters) :
    Except String ExitExactBPTInAttributes :=
  .error "Exit type not supported"

/-- StablePhantomPoolExit.buildExitExactTokensOut: throws unconditionally. -/
def buildExitExactTokensOut (_p : ExitExactTokensOutParameters) :
    Except String ExitExactTokensOutAttributes :=
  .error "Exit type not supported"

/-- StablePhantomPoolExit.buildRecoveryExit: throws unconditionally. -/
def buildRecoveryExit (_p : RecoveryExitParameters) :
    Except String ExitExactBPTInAttributes :=
  .error "Exit type not supported"

end StablePhantomPoolExit

/-! Concrete fixtures used by the witnesses: a simple math provider, one
two-token pool and a vault model instance with an empty cache. -/

/-- Witness math provider: joins pay five units of each constituent token
for ten BPT, exits release five units of each token, swaps trade one for
one. -/
def mp0 : MathProvider where
  joinResult := fun pool _ => (pool.tokens, pool.tokens.map (fun _ => (-5 : Int)), 10)
  exitResult := fun pool _ => (pool.tokens, pool.tokens.map (fun _ => (5 : Int)))
  swapResult := fun _ _ _ _ amount => amount

/-- Witness pool holding tokens A and B. -/
def pool0 : Pool :=
  { id := "p1", address := "bpt1", poolType := 0
    tokens := ["A", "B"], balances := [100, 100] }

/-- Witness pool data provider serving exactly `pool0`. -/
def provider0 : Option (List Pool) := some [pool0]

/-- Witness pool dictionary built from `provider0`. -/
def dict0 : PoolDict := buildDict [pool0]

/-- Witness pools source state with nothing cached. -/
def st0 : PoolsSourceState := { cache := none, fetchCount := 0, dictCalls := 0 }

/-- Witness vault model instance over `st0`. -/
def vm0 : VaultModelState := { poolsSource := st0 }

/-- Witness funds metadata. -/
def funds0 : FundManagement :=
  { sender := "s", recipient := "r"
    fromInternalBalance := false, toInternalBalance := false }

/-- Witness join request into `pool0` with no output reference. -/
def join0 : JoinPoolRequest :=
  { actionType := ActionType.Join, poolId := "p1"
    encodedUserData := "0x", outputReference := none }

/-- Witness join request naming a pool id absent from the dictionary. -/
def joinMissing : JoinPoolRequest :=
  { actionType := ActionType.Join, poolId := "nope"
    encodedUserData := "", outputReference := none }

/-- Witness single-swap record trading seven units of A for B in `pool0`. -/
def sw0 : SingleSwap :=
  { poolId := "p1", kind := 0, assetIn := "A", assetOut := "B"
    amount := 7, userData := "" }

/-- Witness swap request carrying the tag value 7, outside the declared
enum values 0 to 3. -/
def badSwap : SwapRequest :=
  { actionType := 7, request := sw0, funds := funds0, outputReference := none }

/-- Witness swap request writing its output into reference slot 1. -/
def swapWrite : SwapRequest :=
  { actionType := ActionType.Swap, request := sw0, funds := funds0
    outputReference := some 1 }

/-- Witness batch-swap step whose amount is chained from reference slot 1. -/
def stepRef1 : BatchSwapStep :=
  { poolId := "p1", assetInIndex := 0, assetOutIndex := 1
    amount := .ref 1, userData := "" }

/-- Witness batch-swap request consuming reference slot 1 in its first
step. -/
def consume1 : BatchSwapRequest :=
  { actionType := ActionType.BatchSwap, swaps := [stepRef1]
    assets := ["A", "B"], funds := funds0, swapType := 0
    outputReferences := [] }

/-! Helper lemmas about delta accumulation and the processing loop. -/

theorem getDelta_setDelta_self (d : DeltaMap) (t : Address) (v : Int) :
    getDelta (setDelta d t v) t = v := by
  induction d with
  | nil => simp [setDelta, getDelta]
  | cons p rest ih =>
    obtain ⟨a, b⟩ := p
    by_cases h : a = t
    · simp [setDelta, h, getDelta]
    · simp [setDelta, h, getDelta, ih]

theorem getDelta_setDelta_ne (d : DeltaMap) {s t : Address} (v : Int)
    (h : s ≠ t) : getDelta (setDelta d s v) t = getDelta d t := by
  induction d with
  | nil => simp [setDelta, getDelta, h]
  | cons p rest ih =>
    obtain ⟨a, b⟩ := p
    by_cases ha : a = s
    · simp [setDelta, ha, getDelta, h]
    · simp [setDelta, ha, getDelta, ih]

theorem getDelta_foldl_pairs (t : Address) :
    ∀ (ps : List (Address × Int)) (d : DeltaMap),
      getDelta (ps.foldl (fun d p => setDelta d p.1 (getDelta d p.1 + p.2)) d) t =
        getDelta d t + (((ps.filter (fun p => p.1 = t)).map (fun p => p.2)).sum)
  | [], d => by simp
  | p :: ps, d => by
    rw [List.foldl_cons, getDelta_foldl_pairs t ps _]
    by_cases h : p.1 = t
    · rw [h, getDelta_setDelta_self]
      simp [List.filter_cons, h]
      ring
    · rw [getDelta_setDelta_ne _ _ h]
      simp [List.filter_cons, h]

theorem getDelta_updateDeltas (d : DeltaMap) (assets : List Address)
    (amounts : List Int) (t : Address) :
    getDelta (VaultModel.updateDeltas d assets amounts) t =
      getDelta d t + contribution t (assets, amounts) := by
  unfold VaultModel.updateDeltas contribution
  exact getDelta_foldl_pairs t (assets.zip amounts) d

theorem getDelta_mergeSteps (t : Address) :
    ∀ (rs : List (List Address × List Int)) (d : DeltaMap),
      getDelta (rs.foldl (fun d' s => VaultModel.updateDeltas d' s.1 s.2) d) t =
        getDelta d t + (rs.map (contribution t)).sum
  | [], d => by simp
  | s :: rs, d => by
    obtain ⟨ts, amts⟩ := s
    rw [List.foldl_cons, getDelta_mergeSteps t rs _, getDelta_updateDeltas]
    simp only [List.map_cons, List.sum_cons]
    ring

theorem processCalls_eq_stepResults (mp : MathProvider) (pools : PoolDict) :
    ∀ (calls : List Requests) (led : RelayerLedger) (d : DeltaMap),
      VaultModel.processCalls mp pools calls led d =
        (VaultModel.stepResults mp pools calls led).map
          (fun r => (r.1.foldl (fun d' s => VaultModel.updateDeltas d' s.1 s.2) d, r.2))
  | [], led, d => by
    simp [VaultModel.processCalls, VaultModel.stepResults, Except.map]
  | call :: rest, led, d => by
    unfold VaultModel.processCalls VaultModel.stepResults
    cases h : VaultModel.runCall mp pools led call with
    | error e => simp [Except.map]
    | ok r =>
      obtain ⟨tokens, amounts, led'⟩ := r
      simp only
      rw [processCalls_eq_stepResults mp pools rest led' _]
      cases hs : VaultModel.stepResults mp pools rest led' with
      | error e => simp [Except.map]
      | ok rr => simp [Except.map]

instance {ε α : Type} [DecidableEq ε] [DecidableEq α] :
    DecidableEq (Except ε α) := fun a b =>
  match a, b with
  | .error e1, .error e2 =>
    if h : e1 = e2 then isTrue (by rw [h])
    else isFalse (fun hh => h (by injection hh))
  | .ok v1, .ok v2 =>
    if h : v1 = v2 then isTrue (by rw [h])
    else isFalse (fun hh => h (by injection hh))
  | .error _, .ok _ => isFalse (fun hh => by cases hh)
  | .ok _, .error _ => isFalse (fun hh => by cases hh)

theorem multicall_eq (mp : MathProvider) (provider : Option (List Pool))
    (vm : VaultModelState) (calls : List Requests) (refresh : Bool)
    (pools : PoolDict) (st : PoolsSourceState)
    (hdict : poolsDictionary provider vm.poolsSource refresh = .ok (pools, st)) :
    VaultModel.multicall mp provider vm calls refresh =
      (VaultModel.processCalls mp pools calls [] []).map (fun r => (r.1, ⟨st⟩)) := by
  simp only [VaultModel.multicall, hdict]
  cases h : VaultModel.processCalls mp pools calls [] [] <;> simp [Except.map]

/-- C1: for every batch of requests, the delta map returned by
`VaultModel.multicall` maps each token to the exact sum of each step's
contribution for it: deltas are merged by additive accumulation keyed by
token address, a token absent from the map being treated as zero before the
first addition.  `stepResults` collects the `(tokens, amounts)` pair each
step hands to `updateDeltas`, and `contribution` is the sum of the amounts
a step pairs with the given token. -/
theorem multicall_delta_eq_sum_of_contributions
    (mp : MathProvider) (provider : Option (List Pool)) (vm : VaultModelState)
    (refresh : Bool) (calls : List Requests) (pools : PoolDict)
    (st : PoolsSourceState) (rs : List (List Address × List Int))
    (led : RelayerLedger) (m : DeltaMap) (vm' : VaultModelState) (t : Address)
    (hdict : poolsDictionary provider vm.poolsSource refresh = .ok (pools, st))
    (hsteps : VaultModel.stepResults mp pools calls [] = .ok (rs, led))
    (hcall : VaultModel.multicall mp provider vm calls refresh = .ok (m, vm')) :
    getDelta m t = (rs.map (contribution t)).sum := by
  rw [multicall_eq mp provider vm calls refresh pools st hdict] at hcall
  rw [processCalls_eq_stepResults, hsteps] at hcall
  simp [Except.map] at hcall
  rw [← hcall.1, getDelta_mergeSteps]
  simp [getDelta]

/-- Witness for C1: two joins into the same pool touch tokens A and B twice;
the returned delta for A is the sum minus ten of the two per-step
contributions of minus five each. -/
theorem multicall_delta_eq_sum_witness :
    poolsDictionary provider0 vm0.poolsSource false =
      .ok (dict0, { cache := some dict0, fetchCount := 1, dictCalls := 1 }) ∧
    VaultModel.stepResults mp0 dict0 [.joinPool join0, .joinPool join0] [] =
      .ok ([(["A", "B"], [-5, -5]), (["A", "B"], [-5, -5])], []) ∧
    VaultModel.multicall mp0 provider0 vm0 [.joinPool join0, .joinPool join0] false =
      .ok ([("A", -10), ("B", -10)],
        ⟨{ cache := some dict0, fetchCount := 1, dictCalls := 1 }⟩) ∧
    getDelta [("A", -10), ("B", -10)] "A" =
      (([(["A", "B"], [-5, -5]), (["A", "B"], [-5, -5])] :
          List (List Address × List Int)).map (contribution "A")).sum :=
  ⟨by decide, by decide, by decide,
    multicall_delta_eq_sum_of_contributions mp0 provider0 vm0 false
      [.joinPool join0, .joinPool join0] dict0
      { cache := some dict0, fetchCount := 1, dictCalls := 1 }
      [(["A", "B"], [-5, -5]), (["A", "B"], [-5, -5])] []
      [("A", -10), ("B", -10)]
      ⟨{ cache := some dict0, fetchCount := 1, dictCalls := 1 }⟩ "A"
      (by decide) (by decide) (by decide)⟩

theorem processCalls_append (mp : MathProvider) (pools : PoolDict) :
    ∀ (pre rest : List Requests) (led : RelayerLedger) (d : DeltaMap),
      VaultModel.processCalls mp pools (pre ++ rest) led d =
        (VaultModel.processCalls mp pools pre led d).bind
          (fun r => VaultModel.processCalls mp pools rest r.2 r.1)
  | [], rest, led, d => by
    simp [VaultModel.processCalls, Except.bind]
  | call :: pre, rest, led, d => by
    simp only [List.cons_append]
    cases h : VaultModel.runCall mp pools led call with
    | error e =>
      simp only [VaultModel.processCalls, h]
      simp [Except.bind]
    | ok r =>
      obtain ⟨tokens, amounts, led'⟩ := r
      simp only [VaultModel.processCalls, h]
      simp only [Except.bind]
      exact processCalls_append mp pools pre rest led' _

theorem poolsDictionary_dictCalls {provider : Option (List Pool)}
    {st : PoolsSourceState} {refresh : Bool} {d : PoolDict}
    {st' : PoolsSourceState}
    (h : poolsDictionary provider st refresh = .ok (d, st')) :
    st'.dictCalls = st.dictCalls + 1 := by
  unfold poolsDictionary at h
  split at h
  · simp only [Except.ok.injEq, Prod.mk.injEq] at h
    rw [← h.2]
  · split at h
    · cases h
    · simp only [Except.ok.injEq, Prod.mk.injEq] at h
      rw [← h.2]

theorem poolsDictionary_cache_some {provider : Option (List Pool)}
    {st : PoolsSourceState} {refresh : Bool} {d : PoolDict}
    {st' : PoolsSourceState}
    (h : poolsDictionary provider st refresh = .ok (d, st')) :
    st'.cache = some d := by
  unfold poolsDictionary at h
  split at h
  · simp only [Except.ok.injEq, Prod.mk.injEq] at h
    rw [← h.2]
    simp_all
  · split at h
    · cases h
    · simp only [Except.ok.injEq, Prod.mk.injEq] at h
      rw [← h.2]
      simp [h.1]

/-- C3: any failure in any step aborts the whole `multicall` call and
surfaces that step's error: if the requests before a failing request all
process successfully and the failing request's execution raises `e`, then
`multicall` over the whole batch returns exactly `Except.error e` and no
delta map. -/
theorem multicall_aborts_on_failing_step
    (mp : MathProvider) (provider : Option (List Pool)) (vm : VaultModelState)
    (refresh : Bool) (pre post : List Requests) (call : Requests)
    (e : VaultError) (pools : PoolDict) (st : PoolsSourceState)
    (d : DeltaMap) (led : RelayerLedger)
    (hdict : poolsDictionary provider vm.poolsSource refresh = .ok (pools, st))
    (hpre : VaultModel.processCalls mp pools pre [] [] = .ok (d, led))
    (hfail : VaultModel.runCall mp pools led call = .error e) :
    VaultModel.multicall mp provider vm (pre ++ call :: post) refresh =
      .error e := by
  rw [multicall_eq mp provider vm (pre ++ call :: post) refresh pools st hdict]
  rw [processCalls_append, hpre]
  simp only [Except.bind]
  unfold VaultModel.processCalls
  rw [hfail]
  simp [Except.map]

/-- Witness for C3: a join naming an unknown pool id placed after one
successful join makes the whole call fail with that step's
`PoolNotFoundError`. -/
theorem multicall_aborts_witness :
    poolsDictionary provider0 vm0.poolsSource false =
      .ok (dict0, { cache := some dict0, fetchCount := 1, dictCalls := 1 }) ∧
    VaultModel.processCalls mp0 dict0 [.joinPool join0] [] [] =
      .ok ([("A", -5), ("B", -5)], []) ∧
    VaultModel.runCall mp0 dict0 [] (.joinPool joinMissing) =
      .error (.PoolNotFoundError "nope") ∧
    VaultModel.multicall mp0 provider0 vm0
      ([.joinPool join0] ++ .joinPool joinMissing :: []) false =
      .error (.PoolNotFoundError "nope") :=
  ⟨by decide, by decide, by decide,
    multicall_aborts_on_failing_step mp0 provider0 vm0 false
      [.joinPool join0] [] (.joinPool joinMissing)
      (.PoolNotFoundError "nope") dict0
      { cache := some dict0, fetchCount := 1, dictCalls := 1 }
      [("A", -5), ("B", -5)] []
      (by decide) (by decide) (by decide)⟩

/-- C7: each of the four static mapping helpers is a pure field-for-field
faithful translation: the produced request carries the tag of its variant
and every other field equals the corresponding field of the input
descriptor (`encodedUserData` coming from the `userData` of the nested
join or exit record, as in the source). -/
theorem map_request_helpers_faithful :
    (∀ call : Swap,
      (VaultModel.mapSwapRequest call).actionType = ActionType.Swap ∧
      (VaultModel.mapSwapRequest call).request = call.request ∧
      (VaultModel.mapSwapRequest call).funds = call.funds ∧
      (VaultModel.mapSwapRequest call).outputReference = call.outputReference) ∧
    (∀ call : EncodeBatchSwapInput,
      (VaultModel.mapBatchSwapRequest call).actionType = ActionType.BatchSwap ∧
      (VaultModel.mapBatchSwapRequest call).swaps = call.swaps ∧
      (VaultModel.mapBatchSwapRequest call).assets = call.assets ∧
      (VaultModel.mapBatchSwapRequest call).funds = call.funds ∧
      (VaultModel.mapBatchSwapRequest call).swapType = call.swapType ∧
      (VaultModel.mapBatchSwapRequest call).outputReferences = call.outputReferences) ∧
    (∀ call : EncodeJoinPoolInput,
      (VaultModel.mapJoinPoolRequest call).actionType = ActionType.Join ∧
      (VaultModel.mapJoinPoolRequest call).poolId = call.poolId ∧
      (VaultModel.mapJoinPoolRequest call).encodedUserData = call.joinPoolRequest.userData ∧
      (VaultModel.mapJoinPoolRequest call).outputReference = call.outputReference) ∧
    (∀ call : EncodeExitPoolInput,
      (VaultModel.mapExitPoolRequest call).actionType = ActionType.Exit ∧
      (VaultModel.mapExitPoolRequest call).poolId = call.poolId ∧
      (VaultModel.mapExitPoolRequest call).encodedUserData = call.exitPoolRequest.userData ∧
      (VaultModel.mapExitPoolRequest call).outputReferences = call.outputReferences) :=
  ⟨fun _ => ⟨rfl, rfl, rfl, rfl⟩,
   fun _ => ⟨rfl, rfl, rfl, rfl, rfl, rfl⟩,
   fun _ => ⟨rfl, rfl, rfl, rfl⟩,
   fun _ => ⟨rfl, rfl, rfl, rfl⟩⟩

/-- C9: every public build method of `StablePhantomPoolExit` throws the
error with message Exit type not supported for every input; no input leads
to a successfully built exit transaction for this pool type. -/
theorem stable_phantom_exit_never_builds :
    (∀ p : ExitExactBPTInParameters,
      StablePhantomPoolExit.buildExitExactBPTIn p =
        .error "Exit type not supported") ∧
    (∀ p : ExitExactTokensOutParameters,
      StablePhantomPoolExit.buildExitExactTokensOut p =
        .error "Exit type not supported") ∧
    (∀ p : RecoveryExitParameters,
      StablePhantomPoolExit.buildRecoveryExit p =
        .error "Exit type not supported") :=
  ⟨fun _ => rfl, fun _ => rfl, fun _ => rfl⟩

/-- C10: for an empty request list, `multicall` returns the empty delta
map, after still obtaining the pool dictionary from the pools source
exactly once (the invocation counter of `poolsDictionary` grows by exactly
one). -/
theorem multicall_empty_requests
    (mp : MathProvider) (provider : Option (List Pool)) (vm : VaultModelState)
    (refresh : Bool) (pools : PoolDict) (st : PoolsSourceState)
    (hdict : poolsDictionary provider vm.poolsSource refresh = .ok (pools, st)) :
    VaultModel.multicall mp provider vm [] refresh = .ok ([], ⟨st⟩) ∧
    st.dictCalls = vm.poolsSource.dictCalls + 1 := by
  constructor
  · rw [multicall_eq mp provider vm [] refresh pools st hdict]
    simp [VaultModel.processCalls, Except.map]
  · exact poolsDictionary_dictCalls hdict

/-- Witness for C10: the empty batch on the fresh instance returns the
empty delta map with the dictionary-invocation counter at one. -/
theorem multicall_empty_requests_witness :
    poolsDictionary provider0 vm0.poolsSource false =
      .ok (dict0, { cache := some dict0, fetchCount := 1, dictCalls := 1 }) ∧
    VaultModel.multicall mp0 provider0 vm0 [] false =
      .ok ([], ⟨{ cache := some dict0, fetchCount := 1, dictCalls := 1 }⟩) ∧
    ({ cache := some dict0, fetchCount := 1, dictCalls := 1 } :
        PoolsSourceState).dictCalls = vm0.poolsSource.dictCalls + 1 :=
  ⟨by decide,
    (multicall_empty_requests mp0 provider0 vm0 false dict0
      { cache := some dict0, fetchCount := 1, dictCalls := 1 } (by decide)).1,
    (multicall_empty_requests mp0 provider0 vm0 false dict0
      { cache := some dict0, fetchCount := 1, dictCalls := 1 } (by decide)).2⟩

theorem write_error_eq {led : RelayerLedger} {k : Nat} {v : Int}
    {e : VaultError} (h : led.write k v = .error e) :
    e = .DuplicateReferenceError k := by
  unfold RelayerLedger.write at h
  split at h <;> simp_all

theorem write_no_unsupported (led : RelayerLedger) (k : Nat) (v : Int) :
    led.write k v ≠ .error .UnsupportedActionError := by
  unfold RelayerLedger.write
  split <;> simp

theorem read_no_unsupported (led : RelayerLedger) (k : Nat) :
    led.read k ≠ .error .UnsupportedActionError := by
  unfold RelayerLedger.read
  split <;> simp

theorem resolveAmount_no_unsupported (led : RelayerLedger) (a : SwapAmount) :
    PoolModel.resolveAmount led a ≠ .error .UnsupportedActionError := by
  cases a with
  | value v => simp [PoolModel.resolveAmount]
  | ref k => simpa [PoolModel.resolveAmount] using read_no_unsupported led k

theorem error_ne_of_ne {α : Type} {e f : VaultError} (h : e ≠ f) :
    (Except.error e : Except VaultError α) ≠ Except.error f := by
  intro hc
  exact h (by injection hc)

theorem writeRefs_no_unsupported (amounts : List Int) :
    ∀ (refs : List OutputReference) (led : RelayerLedger),
      PoolModel.writeRefs led amounts refs ≠ .error .UnsupportedActionError
  | [], led => by simp [PoolModel.writeRefs]
  | r :: rest, led => by
    unfold PoolModel.writeRefs
    split
    · cases hw : led.write r.key (amounts.getD r.index 0) with
      | error e => simp [write_error_eq hw]
      | ok led' => exact writeRefs_no_unsupported amounts rest led'
    · simp

theorem writeRefs_error_ne {led : RelayerLedger} {amounts : List Int}
    {refs : List OutputReference} {e : VaultError}
    (h : PoolModel.writeRefs led amounts refs = .error e) :
    e ≠ VaultError.UnsupportedActionError := by
  intro hc
  rw [hc] at h
  exact writeRefs_no_unsupported amounts refs led h

theorem doJoin_no_unsupported (mp : MathProvider) (pools : PoolDict)
    (led : RelayerLedger) (call : JoinPoolRequest) :
    PoolModel.doJoin mp pools led call ≠ .error .UnsupportedActionError := by
  unfold PoolModel.doJoin
  split
  · simp
  · split
    split
    · simp
    · split
      · rename_i e hw
        rw [write_error_eq hw]
        simp
      · simp

theorem doExit_no_unsupported (mp : MathProvider) (pools : PoolDict)
    (led : RelayerLedger) (call : ExitPoolRequest) :
    PoolModel.doExit mp pools led call ≠ .error .UnsupportedActionError := by
  unfold PoolModel.doExit
  split
  · simp
  · split
    split
    · rename_i e hw
      exact error_ne_of_ne (writeRefs_error_ne hw)
    · simp

theorem doSingleSwap_no_unsupported (mp : MathProvider) (pools : PoolDict)
    (led : RelayerLedger) (call : SwapRequest) :
    PoolModel.doSingleSwap mp pools led call ≠ .error .UnsupportedActionError := by
  unfold PoolModel.doSingleSwap
  split
  · simp
  · dsimp only
    split
    · simp
    · split
      · rename_i e hw
        rw [write_error_eq hw]
        simp
      · simp

theorem resolveAmount_error_ne {led : RelayerLedger} {a : SwapAmount}
    {e : VaultError} (h : PoolModel.resolveAmount led a = .error e) :
    e ≠ VaultError.UnsupportedActionError := by
  intro hc
  rw [hc] at h
  exact resolveAmount_no_unsupported led a h

theorem doBatchSwapSteps_no_unsupported (mp : MathProvider) (pools : PoolDict)
    (assets : List Address) (swapType : Nat) (led : RelayerLedger) :
    ∀ (steps : List BatchSwapStep) (acc : List Int),
      PoolModel.doBatchSwapSteps mp pools assets swapType led steps acc ≠
        .error .UnsupportedActionError
  | [], acc => by simp [PoolModel.doBatchSwapSteps]
  | step :: rest, acc => by
    unfold PoolModel.doBatchSwapSteps
    split
    · rename_i e hr
      exact error_ne_of_ne (resolveAmount_error_ne hr)
    · split
      · split
        · split
          · simp
          · dsimp only
            exact doBatchSwapSteps_no_unsupported mp pools assets swapType led rest _
        · simp
      · simp

theorem doBatchSwapSteps_error_ne {mp : MathProvider} {pools : PoolDict}
    {assets : List Address} {swapType : Nat} {led : RelayerLedger}
    {steps : List BatchSwapStep} {acc : List Int} {e : VaultError}
    (h : PoolModel.doBatchSwapSteps mp pools assets swapType led steps acc =
      .error e) : e ≠ VaultError.UnsupportedActionError := by
  intro hc
  rw [hc] at h
  exact doBatchSwapSteps_no_unsupported mp pools assets swapType led steps acc h

theorem doBatchSwap_no_unsupported (mp : MathProvider) (pools : PoolDict)
    (led : RelayerLedger) (call : BatchSwapRequest) :
    PoolModel.doBatchSwap mp pools led call ≠ .error .UnsupportedActionError := by
  unfold PoolModel.doBatchSwap
  split
  · rename_i e hs
    exact error_ne_of_ne (doBatchSwapSteps_error_ne hs)
  · split
    · rename_i e hw
      exact error_ne_of_ne (writeRefs_error_ne hw)
    · simp

theorem doBatchSwap_error_ne {mp : MathProvider} {pools : PoolDict}
    {led : RelayerLedger} {call : BatchSwapRequest} {e : VaultError}
    (h : PoolModel.doBatchSwap mp pools led call = .error e) :
    e ≠ VaultError.UnsupportedActionError := by
  intro hc
  rw [hc] at h
  exact doBatchSwap_no_unsupported mp pools led call h

theorem doSingleSwap_error_ne {mp : MathProvider} {pools : PoolDict}
    {led : RelayerLedger} {call : SwapRequest} {e : VaultError}
    (h : PoolModel.doSingleSwap mp pools led call = .error e) :
    e ≠ VaultError.UnsupportedActionError := by
  intro hc
  rw [hc] at h
  exact doSingleSwap_no_unsupported mp pools led call h

theorem runSingleSwapBranch_no_unsupported (mp : MathProvider)
    (pools : PoolDict) (led : RelayerLedger) (call : Requests) :
    VaultModel.runSingleSwapBranch mp pools led call ≠
      .error .UnsupportedActionError := by
  unfold VaultModel.runSingleSwapBranch
  cases call with
  | singleSwap sw =>
    dsimp only
    split
    · rename_i e hsw
      exact error_ne_of_ne (doSingleSwap_error_ne hsw)
    · simp
  | joinPool j => simp
  | exitPool e => simp
  | batchSwap b => simp

theorem runCall_no_unsupported (mp : MathProvider) (pools : PoolDict)
    (led : RelayerLedger) (call : Requests) :
    VaultModel.runCall mp pools led call ≠ .error .UnsupportedActionError := by
  unfold VaultModel.runCall
  cases call with
  | joinPool j =>
    split
    · exact doJoin_no_unsupported mp pools led j
    · split
      · simp
      · split
        · simp
        · exact runSingleSwapBranch_no_unsupported mp pools led _
  | exitPool ex =>
    split
    · simp
    · split
      · exact doExit_no_unsupported mp pools led ex
      · split
        · simp
        · exact runSingleSwapBranch_no_unsupported mp pools led _
  | batchSwap b =>
    split
    · simp
    · split
      · simp
      · split
        · dsimp only
          split
          · rename_i e hb
            exact error_ne_of_ne (doBatchSwap_error_ne hb)
          · simp
        · exact runSingleSwapBranch_no_unsupported mp pools led _
  | singleSwap sw =>
    split
    · simp
    · split
      · simp
      · split
        · simp
        · exact runSingleSwapBranch_no_unsupported mp pools led _

theorem runCall_error_ne {mp : MathProvider} {pools : PoolDict}
    {led : RelayerLedger} {call : Requests} {e : VaultError}
    (h : VaultModel.runCall mp pools led call = .error e) :
    e ≠ VaultError.UnsupportedActionError := by
  intro hc
  rw [hc] at h
  exact runCall_no_unsupported mp pools led call h

theorem processCalls_no_unsupported (mp : MathProvider) (pools : PoolDict) :
    ∀ (calls : List Requests) (led : RelayerLedger) (d : DeltaMap),
      VaultModel.processCalls mp pools calls led d ≠
        .error .UnsupportedActionError
  | [], led, d => by simp [VaultModel.processCalls]
  | call :: rest, led, d => by
    unfold VaultModel.processCalls
    split
    · rename_i e hr
      exact error_ne_of_ne (runCall_error_ne hr)
    · exact processCalls_no_unsupported mp pools rest _ _

theorem poolsDictionary_no_unsupported (provider : Option (List Pool))
    (st : PoolsSourceState) (refresh : Bool) :
    poolsDictionary provider st refresh ≠ .error .UnsupportedActionError := by
  unfold poolsDictionary
  dsimp only
  split
  · simp
  · split <;> simp

theorem multicall_no_unsupported (mp : MathProvider)
    (provider : Option (List Pool)) (vm : VaultModelState)
    (calls : List Requests) (refresh : Bool) :
    VaultModel.multicall mp provider vm calls refresh ≠
      .error .UnsupportedActionError := by
  unfold VaultModel.multicall
  dsimp only
  split
  · rename_i e hd
    exact error_ne_of_ne fun hc =>
      poolsDictionary_no_unsupported provider vm.poolsSource refresh (hc ▸ hd)
  · split
    · rename_i e hp
      exact error_ne_of_ne fun hc =>
        processCalls_no_unsupported _ _ calls [] [] (hc ▸ hp)
    · simp

/-- C2 counterexample: a request whose `actionType` value 7 is none of the
four recognized variants does not make `multicall` fail with an
`UnsupportedActionError`; the call succeeds, processed by the single-swap
branch of the dispatch. -/
theorem multicall_unknown_tag_counterexample :
    (Requests.singleSwap badSwap).actionType ≠ ActionType.BatchSwap ∧
    (Requests.singleSwap badSwap).actionType ≠ ActionType.Join ∧
    (Requests.singleSwap badSwap).actionType ≠ ActionType.Exit ∧
    (Requests.singleSwap badSwap).actionType ≠ ActionType.Swap ∧
    VaultModel.multicall mp0 provider0 vm0 [.singleSwap badSwap] false =
      .ok ([("B", 7), ("A", -7)],
        ⟨{ cache := some dict0, fetchCount := 1, dictCalls := 1 }⟩) :=
  ⟨by decide, by decide, by decide, by decide, by decide⟩

/-- C2 amended: a request whose `actionType` is neither `Join`, `Exit` nor
`BatchSwap` is dispatched to the single-swap branch of `multicall` and
processed there; `multicall` never fails with an `UnsupportedActionError`
on any input. -/
theorem unknown_tag_routes_to_single_swap :
    (∀ (mp : MathProvider) (pools : PoolDict) (led : RelayerLedger)
       (call : Requests),
      call.actionType ≠ ActionType.Join →
      call.actionType ≠ ActionType.Exit →
      call.actionType ≠ ActionType.BatchSwap →
      VaultModel.runCall mp pools led call =
        VaultModel.runSingleSwapBranch mp pools led call) ∧
    (∀ (mp : MathProvider) (provider : Option (List Pool))
       (vm : VaultModelState) (calls : List Requests) (refresh : Bool),
      VaultModel.multicall mp provider vm calls refresh ≠
        .error .UnsupportedActionError) := by
  constructor
  · intro mp pools led call h1 h2 h3
    unfold VaultModel.runCall
    simp [h1, h2, h3]
  · intro mp provider vm calls refresh
    exact multicall_no_unsupported mp provider vm calls refresh

/-- Witness for the amended C2: the concrete tag-7 request is handed to the
single-swap branch, and the concrete batch holding it does not produce an
`UnsupportedActionError`. -/
theorem unknown_tag_routes_witness :
    VaultModel.runCall mp0 dict0 [] (.singleSwap badSwap) =
      VaultModel.runSingleSwapBranch mp0 dict0 [] (.singleSwap badSwap) ∧
    VaultModel.multicall mp0 provider0 vm0 [.singleSwap badSwap] false ≠
      .error .UnsupportedActionError :=
  ⟨unknown_tag_routes_to_single_swap.1 mp0 dict0 [] (.singleSwap badSwap)
      (by decide) (by decide) (by decide),
    unknown_tag_routes_to_single_swap.2 mp0 provider0 vm0
      [.singleSwap badSwap] false⟩

theorem doSingleSwap_ok (mp : MathProvider) (pools : PoolDict)
    (led : RelayerLedger) (sw : SwapRequest) (pool : Pool)
    (hpool : pools.lookup sw.request.poolId = some pool)
    (href : ∀ k, sw.outputReference = some k → led.lookup k = none) :
    ∃ led', PoolModel.doSingleSwap mp pools led sw =
      .ok ([mp.swapResult pool sw.request.kind sw.request.assetIn
              sw.request.assetOut sw.request.amount,
            -sw.request.amount], led') := by
  unfold PoolModel.doSingleSwap
  rw [hpool]
  dsimp only
  cases hor : sw.outputReference with
  | none => exact ⟨led, rfl⟩
  | some k =>
    dsimp only
    unfold RelayerLedger.write
    rw [href k hor]
    exact ⟨_, rfl⟩

/-- C4: a single-swap request with the `Swap` tag contributes exactly two
entries to the delta merge, keyed in the order `[assetOut, assetIn]`, the
amount at position 0 (the math provider's output) belonging to `assetOut`
and the amount at position 1 (the negated input amount) belonging to
`assetIn`; with a positive swap output and a positive input amount the
received entry is positive and the paid entry negative. -/
theorem single_swap_two_entries_out_in
    (mp : MathProvider) (pools : PoolDict) (led : RelayerLedger)
    (sw : SwapRequest) (pool : Pool)
    (htag : sw.actionType = ActionType.Swap)
    (hpool : pools.lookup sw.request.poolId = some pool)
    (href : ∀ k, sw.outputReference = some k → led.lookup k = none)
    (hout : 0 < mp.swapResult pool sw.request.kind sw.request.assetIn
      sw.request.assetOut sw.request.amount)
    (hin : 0 < sw.request.amount) :
    ∃ led',
      VaultModel.runCall mp pools led (.singleSwap sw) =
        .ok ([sw.request.assetOut, sw.request.assetIn],
          [mp.swapResult pool sw.request.kind sw.request.assetIn
             sw.request.assetOut sw.request.amount,
           -sw.request.amount], led') ∧
      0 < mp.swapResult pool sw.request.kind sw.request.assetIn
        sw.request.assetOut sw.request.amount ∧
      -sw.request.amount < 0 := by
  have hrun : VaultModel.runCall mp pools led (.singleSwap sw) =
      VaultModel.runSingleSwapBranch mp pools led (.singleSwap sw) := by
    unfold VaultModel.runCall
    simp [Requests.actionType, htag, ActionType.Swap, ActionType.Join,
      ActionType.Exit, ActionType.BatchSwap]
  obtain ⟨led', hs⟩ := doSingleSwap_ok mp pools led sw pool hpool href
  refine ⟨led', ?_, hout, by omega⟩
  rw [hrun]
  unfold VaultModel.runSingleSwapBranch
  dsimp only
  rw [hs]

/-- Witness for C4: the concrete swap of seven units of A for B in `pool0`
contributes the entries `[B, A]` with amounts seven and minus seven. -/
theorem single_swap_two_entries_witness :
    (swapWrite.actionType = ActionType.Swap ∧
      dict0.lookup swapWrite.request.poolId = some pool0 ∧
      0 < mp0.swapResult pool0 swapWrite.request.kind swapWrite.request.assetIn
        swapWrite.request.assetOut swapWrite.request.amount ∧
      0 < swapWrite.request.amount) ∧
    (∃ led',
      VaultModel.runCall mp0 dict0 [] (.singleSwap swapWrite) =
        .ok ([swapWrite.request.assetOut, swapWrite.request.assetIn],
          [mp0.swapResult pool0 swapWrite.request.kind swapWrite.request.assetIn
             swapWrite.request.assetOut swapWrite.request.amount,
           -swapWrite.request.amount], led') ∧
      0 < mp0.swapResult pool0 swapWrite.request.kind swapWrite.request.assetIn
        swapWrite.request.assetOut swapWrite.request.amount ∧
      -swapWrite.request.amount < 0) :=
  ⟨⟨by decide, by decide, by decide, by decide⟩,
    single_swap_two_entries_out_in mp0 dict0 [] swapWrite pool0
      (by decide) (by decide) (fun k hk => by cases hk; rfl)
      (by decide) (by decide)⟩

theorem consumerFirst_fails (mp : MathProvider) (pools : PoolDict)
    (led : RelayerLedger) (d : DeltaMap) (rest : List Requests)
    (b : BatchSwapRequest) (step : BatchSwapStep) (k : Nat)
    (htag : b.actionType = ActionType.BatchSwap)
    (hhead : b.swaps.head? = some step)
    (hamt : step.amount = SwapAmount.ref k)
    (hk : led.lookup k = none) :
    VaultModel.processCalls mp pools (Requests.batchSwap b :: rest) led d =
      .error (.UnresolvedReferenceError k) := by
  obtain ⟨tail, hswaps⟩ : ∃ tail, b.swaps = step :: tail := by
    cases hs : b.swaps with
    | nil => rw [hs] at hhead; cases hhead
    | cons s tail =>
      rw [hs] at hhead
      simp at hhead
      exact ⟨tail, by rw [hhead]⟩
  have hres : PoolModel.resolveAmount led step.amount =
      .error (.UnresolvedReferenceError k) := by
    rw [hamt]
    unfold PoolModel.resolveAmount
    dsimp only
    unfold RelayerLedger.read
    rw [hk]
  have hbsw : PoolModel.doBatchSwap mp pools led b =
      .error (.UnresolvedReferenceError k) := by
    unfold PoolModel.doBatchSwap
    rw [hswaps]
    unfold PoolModel.doBatchSwapSteps
    rw [hres]
  have hrun : VaultModel.runCall mp pools led (.batchSwap b) =
      .error (.UnresolvedReferenceError k) := by
    unfold VaultModel.runCall
    simp only [Requests.actionType]
    rw [htag]
    rw [if_neg (by decide : ¬(ActionType.BatchSwap = ActionType.Join))]
    rw [if_neg (by decide : ¬(ActionType.BatchSwap = ActionType.Exit))]
    rw [if_pos (rfl : ActionType.BatchSwap = ActionType.BatchSwap)]
    rw [hbsw]
  unfold VaultModel.processCalls
  rw [hrun]

theorem multicall_ok_dict {mp : MathProvider} {provider : Option (List Pool)}
    {vm : VaultModelState} {calls : List Requests} {refresh : Bool}
    {m : DeltaMap} {vm' : VaultModelState}
    (h : VaultModel.multicall mp provider vm calls refresh = .ok (m, vm')) :
    ∃ pools, poolsDictionary provider vm.poolsSource refresh =
      .ok (pools, vm'.poolsSource) := by
  unfold VaultModel.multicall at h
  dsimp only at h
  split at h
  · cases h
  · rename_i pools st' hd
    split at h
    · cases h
    · simp only [Except.ok.injEq, Prod.mk.injEq] at h
      exact ⟨pools, by rw [← h.2]; exact hd⟩

theorem poolsDictionary_cache_hit {st : PoolsSourceState} {d : PoolDict}
    (provider : Option (List Pool)) (hc : st.cache = some d) :
    poolsDictionary provider st false =
      .ok (d, { st with dictCalls := st.dictCalls + 1 }) := by
  unfold poolsDictionary
  simp [hc]

/-- C5: every `multicall` invocation constructs a fresh relayer ledger, so
no output-reference state written by one invocation is visible to a later
invocation on the same instance: after any successful first call, a second
call whose first request reads any reference key fails with an
`UnresolvedReferenceError` for that key, whatever the first call wrote. -/
theorem multicall_fresh_ledger_no_cross_call_state
    (mp : MathProvider) (provider : Option (List Pool)) (vm : VaultModelState)
    (calls1 : List Requests) (r1 : Bool) (m1 : DeltaMap) (vm1 : VaultModelState)
    (b : BatchSwapRequest) (step : BatchSwapStep) (k : Nat)
    (rest : List Requests)
    (h1 : VaultModel.multicall mp provider vm calls1 r1 = .ok (m1, vm1))
    (htag : b.actionType = ActionType.BatchSwap)
    (hhead : b.swaps.head? = some step)
    (hamt : step.amount = SwapAmount.ref k) :
    VaultModel.multicall mp provider vm1 (Requests.batchSwap b :: rest) false =
      .error (.UnresolvedReferenceError k) := by
  obtain ⟨pools, hd⟩ := multicall_ok_dict h1
  have hc : vm1.poolsSource.cache = some pools := poolsDictionary_cache_some hd
  rw [multicall_eq mp provider vm1 _ false pools _
    (poolsDictionary_cache_hit provider hc)]
  rw [consumerFirst_fails mp pools [] [] rest b step k htag hhead hamt rfl]
  rfl

/-- Witness for C5: the first call writes reference slot 1; the second call
reads slot 1 in its first step and fails with an
`UnresolvedReferenceError`, the ledger having been constructed afresh. -/
theorem multicall_fresh_ledger_witness :
    VaultModel.multicall mp0 provider0 vm0 [.singleSwap swapWrite] false =
      .ok ([("B", 7), ("A", -7)],
        ⟨{ cache := some dict0, fetchCount := 1, dictCalls := 1 }⟩) ∧
    consume1.actionType = ActionType.BatchSwap ∧
    consume1.swaps.head? = some stepRef1 ∧
    stepRef1.amount = SwapAmount.ref 1 ∧
    VaultModel.multicall mp0 provider0
      ⟨{ cache := some dict0, fetchCount := 1, dictCalls := 1 }⟩
      [.batchSwap consume1] false = .error (.UnresolvedReferenceError 1) :=
  ⟨by decide, by decide, by decide, by decide,
    multicall_fresh_ledger_no_cross_call_state mp0 provider0 vm0
      [.singleSwap swapWrite] false [("B", 7), ("A", -7)]
      ⟨{ cache := some dict0, fetchCount := 1, dictCalls := 1 }⟩
      consume1 stepRef1 1 [] (by decide) (by decide) (by decide) (by decide)⟩

/-- C8: in any batch where a request reading reference key `k` is placed so
that no earlier request has written `k` (the consumer reordered before its
producer), `multicall` fails with `UnresolvedReferenceError k`: the prefix
leaves a ledger with no entry for `k`, and the consumer's chained read
fails. -/
theorem consumer_before_producer_unresolved
    (mp : MathProvider) (provider : Option (List Pool)) (vm : VaultModelState)
    (refresh : Bool) (pre post : List Requests) (b : BatchSwapRequest)
    (step : BatchSwapStep) (k : Nat) (pools : PoolDict)
    (st : PoolsSourceState) (d : DeltaMap) (led : RelayerLedger)
    (hdict : poolsDictionary provider vm.poolsSource refresh = .ok (pools, st))
    (hpre : VaultModel.processCalls mp pools pre [] [] = .ok (d, led))
    (hk : led.lookup k = none)
    (htag : b.actionType = ActionType.BatchSwap)
    (hhead : b.swaps.head? = some step)
    (hamt : step.amount = SwapAmount.ref k) :
    VaultModel.multicall mp provider vm
      (pre ++ Requests.batchSwap b :: post) refresh =
      .error (.UnresolvedReferenceError k) := by
  rw [multicall_eq mp provider vm _ refresh pools st hdict]
  rw [processCalls_append, hpre]
  simp only [Except.bind]
  rw [consumerFirst_fails mp pools led d post b step k htag hhead hamt hk]
  rfl

/-- Witness for C8: the batch that consumes reference slot 1 first and only
then contains the producing swap fails with `UnresolvedReferenceError 1`. -/
theorem consumer_before_producer_witness :
    poolsDictionary provider0 vm0.poolsSource false =
      .ok (dict0, { cache := some dict0, fetchCount := 1, dictCalls := 1 }) ∧
    VaultModel.processCalls mp0 dict0 [] [] [] = .ok ([], []) ∧
    ([] : RelayerLedger).lookup 1 = none ∧
    VaultModel.multicall mp0 provider0 vm0
      ([] ++ Requests.batchSwap consume1 :: [.singleSwap swapWrite]) false =
      .error (.UnresolvedReferenceError 1) :=
  ⟨by decide, by decide, by decide,
    consumer_before_producer_unresolved mp0 provider0 vm0 false
      [] [.singleSwap swapWrite] consume1 stepRef1 1 dict0
      { cache := some dict0, fetchCount := 1, dictCalls := 1 } [] []
      (by decide) (by decide) (by decide) (by decide) (by decide) (by decide)⟩

theorem poolsDictionary_refresh_fetches {provider : Option (List Pool)}
    {st : PoolsSourceState} {d : PoolDict} {st' : PoolsSourceState}
    (h : poolsDictionary provider st true = .ok (d, st')) :
    st'.fetchCount = st.fetchCount + 1 := by
  unfold poolsDictionary at h
  cases provider with
  | none =>
    cases hc : st.cache with
    | none => rw [hc] at h; simp at h
    | some d0 => rw [hc] at h; simp at h
  | some ps =>
    cases hc : st.cache with
    | none =>
      rw [hc] at h
      simp only [Except.ok.injEq, Prod.mk.injEq] at h
      rw [← h.2]
    | some d0 =>
      rw [hc] at h
      simp only [Except.ok.injEq, Prod.mk.injEq] at h
      rw [← h.2]

/-- C6: calling `multicall` twice with the second call at `refresh = false`
issues no new fetch (the fetch counter is unchanged and the cached
dictionary is kept); any successful call with `refresh = true` issues a
fetch regardless of cache state (the fetch counter grows by one); and the
`refresh` parameter defaults to `false`. -/
theorem multicall_cache_behavior :
    (∀ (mp mp2 : MathProvider) (provider provider2 : Option (List Pool))
       (vm : VaultModelState) (calls1 calls2 : List Requests) (r1 : Bool)
       (m1 m2 : DeltaMap) (vm1 vm2 : VaultModelState),
      VaultModel.multicall mp provider vm calls1 r1 = .ok (m1, vm1) →
      VaultModel.multicall mp2 provider2 vm1 calls2 false = .ok (m2, vm2) →
      vm2.poolsSource.fetchCount = vm1.poolsSource.fetchCount ∧
      vm2.poolsSource.cache = vm1.poolsSource.cache) ∧
    (∀ (mp : MathProvider) (provider : Option (List Pool))
       (vm : VaultModelState) (calls : List Requests) (m' : DeltaMap)
       (vm' : VaultModelState),
      VaultModel.multicall mp provider vm calls true = .ok (m', vm') →
      vm'.poolsSource.fetchCount = vm.poolsSource.fetchCount + 1) ∧
    (∀ (mp : MathProvider) (provider : Option (List Pool))
       (vm : VaultModelState) (calls : List Requests),
      VaultModel.multicall mp provider vm calls =
        VaultModel.multicall mp provider vm calls false) := by
  refine ⟨?_, ?_, ?_⟩
  · intro mp mp2 provider provider2 vm calls1 calls2 r1 m1 m2 vm1 vm2 h1 h2
    obtain ⟨pools1, hd1⟩ := multicall_ok_dict h1
    have hc1 : vm1.poolsSource.cache = some pools1 :=
      poolsDictionary_cache_some hd1
    obtain ⟨pools2, hd2⟩ := multicall_ok_dict h2
    have hhit := poolsDictionary_cache_hit provider2 hc1
    rw [hd2] at hhit
    simp only [Except.ok.injEq, Prod.mk.injEq] at hhit
    constructor
    · rw [hhit.2]
    · rw [hhit.2]
  · intro mp provider vm calls m' vm' h
    obtain ⟨pools, hd⟩ := multicall_ok_dict h
    exact poolsDictionary_refresh_fetches hd
  · intro mp provider vm calls
    rfl

/-- Witness for C6: the first call fetches (counter zero to one); the
second call with `refresh = false` leaves the fetch counter at one and
keeps the cached dictionary; the first call with `refresh = true` fetched
exactly once. -/
theorem multicall_cache_behavior_witness :
    VaultModel.multicall mp0 provider0 vm0 [] true =
      .ok ([], ⟨{ cache := some dict0, fetchCount := 1, dictCalls := 1 }⟩) ∧
    VaultModel.multicall mp0 provider0
      ⟨{ cache := some dict0, fetchCount := 1, dictCalls := 1 }⟩ [] false =
      .ok ([], ⟨{ cache := some dict0, fetchCount := 1, dictCalls := 2 }⟩) ∧
    ((⟨{ cache := some dict0, fetchCount := 1, dictCalls := 2 }⟩ :
        VaultModelState).poolsSource.fetchCount =
      (⟨{ cache := some dict0, fetchCount := 1, dictCalls := 1 }⟩ :
        VaultModelState).poolsSource.fetchCount ∧
     (⟨{ cache := some dict0, fetchCount := 1, dictCalls := 2 }⟩ :
        VaultModelState).poolsSource.cache =
      (⟨{ cache := some dict0, fetchCount := 1, dictCalls := 1 }⟩ :
        VaultModelState).poolsSource.cache) ∧
    (⟨{ cache := some dict0, fetchCount := 1, dictCalls := 1 }⟩ :
        VaultModelState).poolsSource.fetchCount =
      vm0.poolsSource.fetchCount + 1 :=
  ⟨by decide, by decide,
    multicall_cache_behavior.1 mp0 mp0 provider0 provider0 vm0 [] [] true
      [] [] ⟨{ cache := some dict0, fetchCount := 1, dictCalls := 1 }⟩
      ⟨{ cache := some dict0, fetchCount := 1, dictCalls := 2 }⟩
      (by decide) (by decide),
    multicall_cache_behavior.2.1 mp0 provider0 vm0 [] []
      ⟨{ cache := some dict0, fetchCount := 1, dictCalls := 1 }⟩ (by decide)⟩

end Balancer
